import Mathlib

/-!
Shallow embedding of the resume_app backend core
(`backend/src/controllers/resumeController.js`, `backend/src/utils/gridfs.js`,
`backend/src/models/Resume.js`) and proofs of the specification claims.

JavaScript strings are modelled as Lean `String` restricted to the ASCII
behaviour of `toUpperCase` / `toLowerCase` / `trim`; buffers are `List Nat`
byte sequences; MongoDB ObjectIds are `Nat`; timestamps (`Date.now()`,
`createdAt`) are an explicit `Nat` counter.  Asynchronous failures of the
external stores (GridFS, the parser, the transaction) are injected through an
explicit `Oracle`, so every execution of the upload pipeline is a pure
function of the request, the store state and the oracle.
-/

namespace ResumeApp

/-! ### JavaScript string primitives -/

/-- ASCII whitespace, the fragment of the JS `trim` class exercised here. -/
def jsWhitespace (c : Char) : Bool :=
  c = ' ' || c = '\t' || c = '\n' || c = '\r'

/-- JS `String.prototype.trim` (ASCII whitespace). -/
def jsTrim (s : String) : String :=
  String.mk (((s.data.dropWhile jsWhitespace).reverse.dropWhile jsWhitespace).reverse)

/-- JS `String.prototype.toUpperCase` on ASCII data. -/
def jsToUpper (s : String) : String :=
  String.mk (s.data.map Char.toUpper)

/-- JS `String.prototype.toLowerCase` on ASCII data. -/
def jsToLower (s : String) : String :=
  String.mk (s.data.map Char.toLower)

/-- Accumulator for `splitOnChar`; mirrors JS `split(sep)` keeping empty parts. -/
def splitCharAux (sep : Char) : List Char → List Char → List String
  | [], acc => [String.mk acc.reverse]
  | c :: cs, acc =>
    if c = sep then String.mk acc.reverse :: splitCharAux sep cs []
    else splitCharAux sep cs (c :: acc)

/-- JS `s.split(sep)` for a one-character separator. -/
def splitOnChar (sep : Char) (s : String) : List String :=
  splitCharAux sep s.data []

/-- JS `Array.prototype.join(sep)`. -/
def joinWith (sep : String) : List String → String
  | [] => ""
  | [x] => x
  | x :: y :: xs => x ++ sep ++ joinWith sep (y :: xs)

/-- First list starts with the second pattern list. -/
def startsWithL : List Char → List Char → Bool
  | [], _ => true
  | _ :: _, [] => false
  | a :: as, b :: bs => a = b && startsWithL as bs

/-- Substring test on character lists (`pat` occurs somewhere in `s`). -/
def containsSub (pat s : List Char) : Bool :=
  match s with
  | [] => startsWithL pat []
  | _ :: rest => startsWithL pat s || containsSub pat rest

/-- Test of the case-insensitive `RegExp` the controller builds from a plain
filter string: a case-insensitive substring match. -/
def ciTest (pat s : String) : Bool :=
  containsSub (pat.data.map Char.toLower) (s.data.map Char.toLower)

/-- `[...new Set(list)]`: insertion-ordered deduplication, first occurrence
kept. -/
def jsSetDedupAux : List String → List String → List String
  | _, [] => []
  | seen, x :: xs =>
    if seen.contains x then jsSetDedupAux seen xs
    else x :: jsSetDedupAux (seen ++ [x]) xs

/-- JS `[...new Set(l)]`. -/
def jsSetDedup (l : List String) : List String :=
  jsSetDedupAux [] l

/-- JS truthiness for a possibly-undefined string: `undefined` and `""` are
falsy. -/
def falsyS : Option String → Bool
  | none => true
  | some s => s = ""

/-- Collapse a possibly-undefined string to `none` when it is JS-falsy. -/
def optTruthy (o : Option String) : Option String :=
  match o with
  | none => none
  | some s => if s = "" then none else some s

/-- The regex `replace(/\.[^/.]+$/, "")` of `uploadResume`: drop a final
`.ext` suffix whose extension part is non-empty and free of `/` and `.`. -/
def stripExt (s : String) : String :=
  let rev := s.data.reverse
  let ext := rev.takeWhile (fun c => ¬ (c = '.' ∨ c = '/'))
  match rev.drop ext.length with
  | '.' :: tail => if ext.length ≥ 1 then String.mk tail.reverse else s
  | _ => s

/-! ### `formatTitleCase` (resumeController.js lines 11-35) -/

/-- The `commonAbbreviations` array, verbatim (note the mixed-case entries). -/
def commonAbbreviations : List String :=
  ["LLC", "LLP", "Inc", "Corp", "Ltd", "Co", "USA", "US", "UK", "AI", "IT", "IBM", "HP", "AWS", "GE"]

/-- The `commonLowercase` array, verbatim. -/
def commonLowercase : List String :=
  ["of", "the", "and", "a", "an", "in", "on", "at", "by", "for", "with", "to"]

/-- `word.charAt(0).toUpperCase() + word.slice(1).toLowerCase()`. -/
def jsTitleWord (w : String) : String :=
  match w.data with
  | [] => ""
  | c :: rest => String.mk (c.toUpper :: rest.map Char.toLower)

/-- The per-word body of the `formatTitleCase` map callback. -/
def formatWord (index : Nat) (word : String) : String :=
  if commonAbbreviations.contains (jsToUpper word) then jsToUpper word
  else if index > 0 ∧ commonLowercase.contains (jsToLower word) then jsToLower word
  else jsTitleWord word

/-- `words.map((word, index) => ...)` with the running index made explicit. -/
def formatWords (index : Nat) : List String → List String
  | [] => []
  | w :: ws => formatWord index w :: formatWords (index + 1) ws

/-- `formatTitleCase` from resumeController.js. -/
def formatTitleCase (text : String) : String :=
  if text = "" then ""
  else joinWith " " (formatWords 0 (splitOnChar ' ' text))

/-! ### Tag resolver (`findOrCreateCompanies` / `findOrCreateKeywords`) -/

/-- A Company or Keyword row (`{_id, name}` with `name` meant to be unique). -/
structure TagRec where
  id : Nat
  name : String
deriving DecidableEq, Repr

/-- One tag collection plus its ObjectId generator. -/
structure TagState where
  table : List TagRec
  nextId : Nat
deriving DecidableEq, Repr

/-- Normalization applied to company names: `formatTitleCase(name.trim())`. -/
def companyNorm (n : String) : String := formatTitleCase (jsTrim n)

/-- Normalization applied to keyword names: `name.trim()`. -/
def keywordNorm (n : String) : String := jsTrim n

/-- `findOne({name: formatted})` then `create({name: formatted})` for a single
name; returns the updated collection and the resolved id. -/
def resolveName (norm : String → String) (st : TagState) (name : String) : TagState × Nat :=
  let formatted := norm name
  match st.table.find? (fun c => c.name = formatted) with
  | some c => (st, c.id)
  | none => ({ table := st.table ++ [⟨st.nextId, formatted⟩], nextId := st.nextId + 1 }, st.nextId)

/-- The resolution loop.  `failAt = some i` injects a thrown store error while
resolving the `i`-th name: the loop's partial creations persist (the tag
queries run outside the Mongo session) but the accumulated ids are lost with
the exception, modelled by returning `none`. -/
def findOrCreateTagsAux (norm : String → String) (failAt : Option Nat) :
    TagState → List String → Nat → List Nat → TagState × Option (List Nat)
  | st, [], _, acc => (st, some acc.reverse)
  | st, n :: ns, idx, acc =>
    if failAt = some idx then (st, none)
    else
      let p := resolveName norm st n
      findOrCreateTagsAux norm failAt p.1 ns (idx + 1) (p.2 :: acc)

/-- `findOrCreateCompanies` / `findOrCreateKeywords`, parametrised by the
per-name normalization. -/
def findOrCreateTags (norm : String → String) (failAt : Option Nat)
    (st : TagState) (names : List String) : TagState × Option (List Nat) :=
  findOrCreateTagsAux norm failAt st names 0 []

/-- Company resolutions performed by a sequence of ingestions, each batch
resolved by one `findOrCreateCompanies` call (no injected failures). -/
def resolveIngestions (batches : List (List String)) (st : TagState) : TagState :=
  batches.foldl (fun s b => (findOrCreateTags companyNorm none s b).1) st

/-- Number of Company rows whose stored name is `n`. -/
def tagCount (st : TagState) (n : String) : Nat :=
  (st.table.filter (fun c => c.name = n)).length

/-! ### Data model: Resume schema and the store pair -/

/-- A Resume document (`models/Resume.js`).  The schema marks `fileId`
required; it is still modelled as `Option` to mirror the controller's
`!resume.fileId` falsiness check.  `createdAt` is the creation counter. -/
structure ResumeRec where
  id : Nat
  name : String
  major : String
  graduationYear : String
  fileId : Option Nat
  uploadedBy : String
  companies : List Nat
  keywords : List Nat
  isActive : Bool
  createdAt : Nat
deriving DecidableEq, Repr

/-- Combined durable state: the GridFS blob ids plus the metadata
collections, each with its ObjectId generator. -/
structure Store where
  blobs : List Nat
  nextBlobId : Nat
  companyState : TagState
  keywordState : TagState
  resumes : List ResumeRec
  nextResumeId : Nat
deriving DecidableEq, Repr

/-- The object the external `parseResume` extractor resolves with; every
field may be absent. -/
structure ParsedData where
  name : Option String
  major : Option String
  graduationYear : Option String
  companies : Option (List String)
  keywords : Option (List String)
deriving DecidableEq, Repr

/-- Failure injection for one run of `uploadResume`: which external calls
throw.  `parseResult = none` means `parseResume` rejected (with message
`parseErrMsg`); `companyFailAt`/`keywordFailAt` index the name whose
resolution throws inside the find-or-create loop. -/
structure Oracle where
  parseResult : Option ParsedData
  parseErrMsg : String
  blobWriteFails : Bool
  companyFailAt : Option Nat
  keywordFailAt : Option Nat
  dbCreateFails : Bool
  commitFails : Bool
  blobDeleteFails : Bool
deriving DecidableEq, Repr

/-- The multipart file attached by multer (`req.file`). -/
structure FileData where
  originalname : Option String
  buffer : List Nat
deriving DecidableEq, Repr

/-- An upload request: the file plus the optional form fields and the
authenticated principal's id (`req.user.id`, possibly absent or empty). -/
structure UploadReq where
  file : Option FileData
  name : Option String
  major : Option String
  graduationYear : Option String
  companies : Option String
  keywords : Option String
  userId : Option String
deriving DecidableEq, Repr

/-- HTTP outcome of `uploadResume`. -/
inductive UploadStatus where
  | badRequest (msg : String)
  | created
  | serverError (step : String)
deriving DecidableEq, Repr

/-- `res.status(...) == 400`. -/
def UploadStatus.is400 : UploadStatus → Bool
  | .badRequest _ => true
  | _ => false

/-- `res.status(...) == 500`. -/
def UploadStatus.is500 : UploadStatus → Bool
  | .serverError _ => true
  | _ => false

/-- The `data` object of the 201 response body. -/
structure RespData where
  id : Nat
  name : String
  major : String
  graduationYear : String
  parsingWarning : Option String
  companies : List String
  keywords : List String
deriving DecidableEq, Repr

/-- Full observable outcome of one `uploadResume` run: HTTP status, the
resulting durable state, the success payload, and bookkeeping flags —
whether the GridFS write completed, whether a company/keyword resolution
threw (and was swallowed), and how many compensating GridFS deletes were
attempted. -/
structure UploadOutcome where
  status : UploadStatus
  store : Store
  data : Option RespData
  blobWritten : Bool
  companyFailure : Bool
  keywordFailure : Bool
  blobDeleteAttempts : Nat
deriving DecidableEq, Repr

/-! ### The validation stage (resumeController.js lines 83-115) -/

/-- The bytes of `'%PDF'`. -/
def pdfMagic : List Nat := [37, 80, 68, 70]

/-- The three body checks run once a file is present, in source order;
`some msg` is the 400 message. -/
def validateFile (f : FileData) : Option String :=
  if f.buffer.length = 0 then some "Empty file content."
  else if f.buffer.length > 10 * 1024 * 1024 then some "File too large. Maximum file size is 10MB."
  else if f.buffer.take 4 ≠ pdfMagic then some "Invalid PDF file format."
  else none

/-- A validation rejection: 400, transaction aborted, nothing mutated. -/
def rejectOutcome (st : Store) (msg : String) : UploadOutcome :=
  ⟨.badRequest msg, st, none, false, false, false, 0⟩

/-! ### The data-processing stage (lines 121-230) -/

/-- Resolution of the record's `name` (lines 149-176). -/
def computeName (bodyName : Option String) (pd : ParsedData) (stem : String) (now : Nat) : String :=
  let n0 : String :=
    if falsyS bodyName then
      match pd.name with
      | some pn => if pn ≠ "" ∧ jsTrim pn ≠ "" then pn else stem
      | none => stem
    else bodyName.getD ""
  let n1 := if n0 = "" ∨ jsTrim n0 = "" then "Unknown_Resume_" ++ toString now else n0
  if n1.data.length > 255 then String.mk (n1.data.take 252) ++ "..." else n1

/-- Resolution of `major` (lines 179-192): body, else parsed, else empty;
empty becomes `"Unspecified"`; overlong is truncated with `"..."`. -/
def computeMajor (bodyMajor : Option String) (pd : ParsedData) : String :=
  let m0 := if ¬ falsyS bodyMajor then bodyMajor.getD ""
            else if ¬ falsyS pd.major then pd.major.getD "" else ""
  let m1 := if m0 = "" ∨ jsTrim m0 = "" then "Unspecified" else m0
  if m1.data.length > 255 then String.mk (m1.data.take 252) ++ "..." else m1

/-- Resolution of `graduationYear` (lines 180-204): like `major`, except an
overlong value is replaced by `"Unspecified"` instead of truncated. -/
def computeGradYear (bodyYear : Option String) (pd : ParsedData) : String :=
  let y0 := if ¬ falsyS bodyYear then bodyYear.getD ""
            else if ¬ falsyS pd.graduationYear then pd.graduationYear.getD "" else ""
  let y1 := if y0 = "" ∨ jsTrim y0 = "" then "Unspecified" else y0
  if y1.data.length > 255 then "Unspecified" else y1

/-- `body.split(',').map(trim).filter(Boolean)`. -/
def splitCSV (s : String) : List String :=
  ((splitOnChar ',' s).map jsTrim).filter (fun x => x ≠ "")

/-- A company/keyword list (lines 207-224): CSV body field if truthy, else
the parsed list, capped at 100 entries. -/
def computeList (body : Option String) (pdList : Option (List String)) : List String :=
  let l0 := if ¬ falsyS body then splitCSV (body.getD "") else pdList.getD []
  if l0.length > 100 then l0.take 100 else l0

/-- The fallback metadata substituted when `parseResume` throws
(lines 136-142). -/
def fallbackParsed (stem : String) : ParsedData :=
  ⟨some stem, some "Unspecified", some "Unspecified", some [], some []⟩

/-- The normalized field values carried from data processing to the commit. -/
structure Fields where
  name : String
  major : String
  graduationYear : String
  uniqueCompanyList : List String
  uniqueKeywordList : List String
deriving DecidableEq, Repr

/-! ### Blob write, tag association, record creation, commit (lines 232-362) -/

/-- `Resume.create([...], {session})` — the document as saved, with the
schema's `trim: true` applied to `name`, `major` and `graduationYear`. -/
def createResumeRec (st : Store) (flds : Fields) (blobId : Nat) (uid : Option String)
    (companyIds keywordIds : List Nat) : ResumeRec :=
  { id := st.nextResumeId
    name := jsTrim flds.name
    major := jsTrim flds.major
    graduationYear := jsTrim flds.graduationYear
    fileId := some blobId
    uploadedBy := if falsyS uid then "admin" else uid.getD ""
    companies := companyIds
    keywords := keywordIds
    isActive := true
    createdAt := st.nextResumeId }

/-- The compensating `deleteFromGridFS(gridfsFileId)` in the outer catch:
best-effort, its own failure only logged. -/
def compensate (orc : Oracle) (st : Store) (blobId : Nat) : Store :=
  if orc.blobDeleteFails then st
  else { st with blobs := st.blobs.filter (fun b => b ≠ blobId) }

/-- Everything after a successful GridFS write: the two swallowed
tag-association stages, `Resume.create`, and the transaction commit, with
the outer catch's compensation on the two metadata failures. -/
def uploadAfterBlob (orc : Oracle) (req : UploadReq) (flds : Fields) (pw : Option String)
    (st : Store) (blobId : Nat) : UploadOutcome :=
  let cres := if flds.uniqueCompanyList.length > 0
    then findOrCreateTags companyNorm orc.companyFailAt st.companyState flds.uniqueCompanyList
    else (st.companyState, some [])
  let kres := if flds.uniqueKeywordList.length > 0
    then findOrCreateTags keywordNorm orc.keywordFailAt st.keywordState flds.uniqueKeywordList
    else (st.keywordState, some [])
  let companyIds := cres.2.getD []
  let keywordIds := kres.2.getD []
  let st2 := { st with companyState := cres.1, keywordState := kres.1 }
  if orc.dbCreateFails then
    ⟨.serverError "database_create", compensate orc st2 blobId, none,
      true, cres.2.isNone, kres.2.isNone, 1⟩
  else if orc.commitFails then
    ⟨.serverError "transaction_commit", compensate orc st2 blobId, none,
      true, cres.2.isNone, kres.2.isNone, 1⟩
  else
    let r := createResumeRec st2 flds blobId req.userId companyIds keywordIds
    let st3 := { st2 with resumes := st2.resumes ++ [r], nextResumeId := st2.nextResumeId + 1 }
    ⟨.created, st3,
      some ⟨r.id, r.name, r.major, r.graduationYear, pw, flds.uniqueCompanyList, flds.uniqueKeywordList⟩,
      true, cres.2.isNone, kres.2.isNone, 0⟩

/-- `filenameWithoutExt` (lines 122-124). -/
def mkStem (f : FileData) (now : Nat) : String :=
  match f.originalname with
  | some orig => stripExt orig
  | none => "Resume_" ++ toString now

/-- The metadata in effect after the extract stage: the extractor's result,
or the fallback object when it threw. -/
def mkParsed (orc : Oracle) (f : FileData) (now : Nat) : ParsedData :=
  match orc.parseResult with
  | some d => d
  | none => fallbackParsed (mkStem f now)

/-- The `parsingWarning` carried to the success response (lines 127-134). -/
def mkWarning (orc : Oracle) : Option String :=
  match orc.parseResult with
  | some _ => none
  | none => some (if orc.parseErrMsg = "" then "Unknown parsing error" else orc.parseErrMsg)

/-- Data processing (lines 145-230): precedence resolution, clamping,
capping and deduplication. -/
def mkFields (orc : Oracle) (req : UploadReq) (f : FileData) (now : Nat) : Fields :=
  let stem := mkStem f now
  let pd := mkParsed orc f now
  { name := computeName req.name pd stem now
    major := computeMajor req.major pd
    graduationYear := computeGradYear req.graduationYear pd
    uniqueCompanyList := jsSetDedup (computeList req.companies pd.companies)
    uniqueKeywordList := jsSetDedup (computeList req.keywords pd.keywords) }

/-- Parsing, data processing and the GridFS write for a validated file. -/
def uploadValidated (orc : Oracle) (req : UploadReq) (f : FileData) (st : Store) (now : Nat) :
    UploadOutcome :=
  if orc.blobWriteFails then
    ⟨.serverError "gridfs_upload", st, none, false, false, false, 0⟩
  else
    uploadAfterBlob orc req (mkFields orc req f now) (mkWarning orc)
      { st with blobs := st.blobs ++ [st.nextBlobId], nextBlobId := st.nextBlobId + 1 }
      st.nextBlobId

/-- `uploadResume` (resumeController.js lines 72-363). -/
def uploadResume (orc : Oracle) (req : UploadReq) (st : Store) (now : Nat) : UploadOutcome :=
  match req.file with
  | none => rejectOutcome st "No PDF file uploaded."
  | some f =>
    match validateFile f with
    | some msg => rejectOutcome st msg
    | none => uploadValidated orc req f st now

/-! ### Search (`searchResumes`, lines 366-512) -/

/-- The query parameters of `GET /resumes/search`. -/
structure SearchParams where
  query : Option String
  name : Option String
  major : Option String
  company : Option String
  graduationYear : Option String
  keyword : Option String
deriving DecidableEq, Repr

/-- One disjunct of the Mongo `$or` array the controller assembles. -/
inductive OrCond where
  | nameRe (p : String)
  | majorRe (p : String)
  | yearRe (p : String)
  | companiesIn (ids : List Nat)
  | keywordsIn (ids : List Nat)
deriving DecidableEq, Repr

/-- Evaluation of one `$or` disjunct against a Resume document. -/
def evalOrCond (r : ResumeRec) : OrCond → Bool
  | .nameRe p => ciTest p r.name
  | .majorRe p => ciTest p r.major
  | .yearRe p => ciTest p r.graduationYear
  | .companiesIn ids => r.companies.any (fun c => ids.contains c)
  | .keywordsIn ids => r.keywords.any (fun k => ids.contains k)

/-- The assembled `resumeQuery` document.  `isActive: true` is implicit: it
is always present, see `evalQuery`. -/
structure ResumeQuery where
  orConds : Option (List OrCond)
  nameRe : Option String
  majorRes : Option (List String)
  yearIn : Option (List String)
  companiesIn : Option (List Nat)
  keywordsIn : Option (List Nat)
deriving DecidableEq, Repr

/-- Mongo evaluation of `resumeQuery` against one Resume: all present
top-level filters AND-ed, `$or` satisfied by any disjunct, `$in` of
case-insensitive regexes satisfied by any match. -/
def evalQuery (q : ResumeQuery) (r : ResumeRec) : Bool :=
  r.isActive &&
  (match q.orConds with | none => true | some cs => cs.any (evalOrCond r)) &&
  (match q.nameRe with | none => true | some p => ciTest p r.name) &&
  (match q.majorRes with | none => true | some ps => ps.any (fun p => ciTest p r.major)) &&
  (match q.yearIn with | none => true | some ys => ys.contains r.graduationYear) &&
  (match q.companiesIn with | none => true | some ids => r.companies.any (fun c => ids.contains c)) &&
  (match q.keywordsIn with | none => true | some ids => r.keywords.any (fun k => ids.contains k))

/-- The base query built from `query`, `name`, `major`, `graduationYear`
(lines 371-404). -/
def buildBaseQuery (p : SearchParams) : ResumeQuery :=
  let q0 : ResumeQuery := ⟨none, none, none, none, none, none⟩
  let q1 := match optTruthy p.query with
    | none => q0
    | some qs => { q0 with orConds := some [.nameRe qs, .majorRe qs, .yearRe qs] }
  let q2 := match optTruthy p.name with
    | none => q1
    | some ns => { q1 with nameRe := some ns }
  let q3 := match optTruthy p.major with
    | none => q2
    | some ms => { q2 with majorRes := some (splitCSV ms) }
  match optTruthy p.graduationYear with
  | none => q3
  | some ys => { q3 with yearIn := some (splitCSV ys) }

/-- The heuristic widening of `$or` when the free-text query lexically
contains `company` or `keyword` (lines 454-475), faithful to the source's
overwrite-style `$or` updates. -/
def applyHeuristic (p : SearchParams) (st : Store) (q : ResumeQuery) : ResumeQuery :=
  match optTruthy p.query with
  | none => q
  | some qs =>
    if containsSub "company".data qs.data || containsSub "keyword".data qs.data then
      let mc := st.companyState.table.filter (fun c => ciTest qs c.name)
      let mk := st.keywordState.table.filter (fun k => ciTest qs k.name)
      if mc.length > 0 ∨ mk.length > 0 then
        let orConditions := q.orConds.getD []
        let q' := if mc.length > 0
          then { q with orConds := some (orConditions ++ [.companiesIn (mc.map (fun c => c.id))]) }
          else q
        if mk.length > 0
          then { q' with orConds := some ((q'.orConds.getD orConditions) ++ [.keywordsIn (mk.map (fun k => k.id))]) }
          else q'
      else q
    else q

/-- `.sort({createdAt: -1})`: insert a record into a descending-by-creation
list. -/
def insertDesc (r : ResumeRec) : List ResumeRec → List ResumeRec
  | [] => [r]
  | x :: xs => if x.createdAt ≤ r.createdAt then r :: x :: xs else x :: insertDesc r xs

/-- Sort records by `createdAt`, most recent first. -/
def sortByCreatedDesc : List ResumeRec → List ResumeRec
  | [] => []
  | x :: xs => insertDesc x (sortByCreatedDesc xs)

/-- Result of a search: the count and the selected Resume documents (each is
then projected to a summary with its tag names and file URL). -/
structure SearchOutcome where
  count : Nat
  records : List ResumeRec
deriving DecidableEq, Repr

/-- `searchResumes`: build the query; resolve the `company`/`keyword` filters
first, short-circuiting to an empty 200 when either matches nothing; apply
the free-text heuristic; then filter and sort the Resume collection. -/
def searchResumes (p : SearchParams) (st : Store) : SearchOutcome :=
  let base := buildBaseQuery p
  let companyStep : Option ResumeQuery := match optTruthy p.company with
    | none => some base
    | some cs =>
      let pats := splitCSV cs
      let matching := st.companyState.table.filter (fun c => pats.any (fun pat => ciTest pat c.name))
      if matching.length > 0 then some { base with companiesIn := some (matching.map (fun c => c.id)) }
      else none
  match companyStep with
  | none => ⟨0, []⟩
  | some q1 =>
    let keywordStep : Option ResumeQuery := match optTruthy p.keyword with
      | none => some q1
      | some ks =>
        let pats := splitCSV ks
        let matching := st.keywordState.table.filter (fun k => pats.any (fun pat => ciTest pat k.name))
        if matching.length > 0 then some { q1 with keywordsIn := some (matching.map (fun k => k.id)) }
        else none
    match keywordStep with
    | none => ⟨0, []⟩
    | some q2 =>
      let qf := applyHeuristic p st q2
      let selected := sortByCreatedDesc (st.resumes.filter (evalQuery qf))
      ⟨selected.length, selected⟩

/-! ### Detail and file delivery (`getResumeById`, `getResumeFile`) -/

/-- A route `:id` parameter: either a malformed ObjectId string or a
well-formed one (abstracted to the id it denotes). -/
inductive ReqId where
  | malformed (s : String)
  | wellFormed (n : Nat)
deriving DecidableEq, Repr

/-- Outcome of `GET /resumes/:id`. -/
inductive DetailRes where
  | badRequest
  | notFound
  | found (r : ResumeRec)
deriving DecidableEq, Repr

/-- `getResumeById` (lines 537-576). -/
def getResumeById (rid : ReqId) (st : Store) : DetailRes :=
  match rid with
  | .malformed _ => .badRequest
  | .wellFormed n =>
    match st.resumes.find? (fun r => r.id = n && r.isActive) with
    | none => .notFound
    | some r => .found r

/-- Outcome of `GET /resumes/:id/file`.  The two 404s are distinguished:
`notFoundMeta` is the metadata-level miss (no active record / no file id),
`notFoundStream` is the GridFS file-not-found raised at stream time. -/
inductive FileRes where
  | badRequest
  | notFoundMeta
  | notFoundStream
  | streamed (blobId : Nat)
deriving DecidableEq, Repr

/-- `getResumeFile` (lines 515-534) composed with
`streamFileToResponse` (gridfs.js lines 70-90). -/
def getResumeFile (rid : ReqId) (st : Store) : FileRes :=
  match rid with
  | .malformed _ => .badRequest
  | .wellFormed n =>
    match st.resumes.find? (fun r => r.id = n && r.isActive) with
    | none => .notFoundMeta
    | some r =>
      match r.fileId with
      | none => .notFoundMeta
      | some fid => if st.blobs.contains fid then .streamed fid else .notFoundStream

/-! ### Update (`updateResume`, lines 579-662) -/

/-- A `PUT /resumes/:id` request: id, optional fields, and the principal. -/
structure UpdateReq where
  rid : ReqId
  name : Option String
  major : Option String
  graduationYear : Option String
  companies : Option String
  keywords : Option String
  userId : Option String
  userRole : String
deriving DecidableEq, Repr

/-- HTTP outcome of `updateResume`. -/
inductive UpdateStatus where
  | badRequest
  | notFound
  | forbidden
  | updated
deriving DecidableEq, Repr

/-- Outcome of `updateResume`: status, resulting store, updated document. -/
structure UpdateOutcome where
  status : UpdateStatus
  store : Store
  resume : Option ResumeRec
deriving DecidableEq, Repr

/-- `updateResume`: find the active record, check owner-or-admin, overwrite
the truthy scalar fields (schema `trim` applied on save), and re-resolve the
supplied CSV lists through the tag resolver without deduplication. -/
def updateResume (req : UpdateReq) (st : Store) : UpdateOutcome :=
  match req.rid with
  | .malformed _ => ⟨.badRequest, st, none⟩
  | .wellFormed n =>
    match st.resumes.find? (fun r => r.id = n && r.isActive) with
    | none => ⟨.notFound, st, none⟩
    | some r =>
      if req.userRole != "admin" &&
          (match req.userId with | some u => r.uploadedBy != u | none => true) then
        ⟨.forbidden, st, none⟩
      else
        let r1 := match optTruthy req.name with
          | none => r
          | some v => { r with name := jsTrim v }
        let r2 := match optTruthy req.major with
          | none => r1
          | some v => { r1 with major := jsTrim v }
        let r3 := match optTruthy req.graduationYear with
          | none => r2
          | some v => { r2 with graduationYear := jsTrim v }
        let cstep : TagState × List Nat := match optTruthy req.companies with
          | none => (st.companyState, r3.companies)
          | some cs =>
            let res := findOrCreateTags companyNorm none st.companyState (splitCSV cs)
            (res.1, res.2.getD [])
        let kstep : TagState × List Nat := match optTruthy req.keywords with
          | none => (st.keywordState, r3.keywords)
          | some ks =>
            let res := findOrCreateTags keywordNorm none st.keywordState (splitCSV ks)
            (res.1, res.2.getD [])
        let r4 := { r3 with companies := cstep.2, keywords := kstep.2 }
        ⟨.updated,
          { st with
              companyState := cstep.1
              keywordState := kstep.1
              resumes := st.resumes.map (fun x => if x.id = r.id then r4 else x) },
          some r4⟩

/-! ### Concrete instances used by the claim witnesses and counterexamples -/

/-- A fresh store: no blobs, no tags, no resumes. -/
def emptyStore : Store := ⟨[], 0, ⟨[], 0⟩, ⟨[], 0⟩, [], 0⟩

/-- A successful extractor result. -/
def okParsed : ParsedData := ⟨some "Bob", some "CS", some "2020", some [], some []⟩

/-- An oracle under which every external call succeeds. -/
def okOracle : Oracle := ⟨some okParsed, "", false, none, none, false, false, false⟩

/-- A minimal valid PDF upload (`a.pdf`, body exactly the magic bytes). -/
def pdfFileA : FileData := ⟨some "a.pdf", pdfMagic⟩

/-- A file whose first bytes are `GIF8`. -/
def gifFile : FileData := ⟨some "x.gif", [71, 73, 70, 56]⟩

/-- An upload request carrying the GIF file. -/
def gifReq : UploadReq := ⟨some gifFile, none, none, none, none, none, some "u1"⟩

/-- Oracle injecting a store error while resolving the second company name. -/
def tagFailOracle : Oracle := { okOracle with companyFailAt := some 1 }

/-- Upload supplying two company names, the second of which will fail. -/
def tagFailReq : UploadReq := ⟨some pdfFileA, some "Bob", none, none, some "Acme, Bravo", none, some "u1"⟩

/-- Oracle whose `Resume.create` throws. -/
def dbFailOracle : Oracle := { okOracle with dbCreateFails := true }

/-- Oracle whose extractor throws with message `kaboom`. -/
def throwParseOracle : Oracle := ⟨none, "kaboom", false, none, none, false, false, false⟩

/-- A valid PDF named `.pdf` (its filename stem is empty), no form fields. -/
def dotPdfReq : UploadReq := ⟨some ⟨some ".pdf", pdfMagic⟩, none, none, none, none, none, some "u1"⟩

/-- A valid PDF named `alice.pdf`, no form fields. -/
def alicePdfReq : UploadReq := ⟨some ⟨some "alice.pdf", pdfMagic⟩, none, none, none, none, none, some "u1"⟩

/-- A valid upload whose authenticated principal id is the empty string. -/
def falsyUserReq : UploadReq := ⟨some pdfFileA, some "Bob", none, none, none, none, some ""⟩

/-- A soft-deleted resume whose blob id 3 is still in the blob store. -/
def inactiveResume : ResumeRec := ⟨0, "Bob", "CS", "2020", some 3, "u1", [], [], false, 0⟩

/-- A store holding only the soft-deleted resume, its blob still present. -/
def inactiveStore : Store := ⟨[3], 4, ⟨[], 0⟩, ⟨[], 0⟩, [inactiveResume], 1⟩

/-- An active resume whose blob id 9 is missing from the blob store. -/
def orphanResume : ResumeRec := ⟨1, "Al", "CS", "2021", some 9, "u1", [], [], true, 1⟩

/-- A store with the soft-deleted resume and the orphan-metadata resume. -/
def orphanStore : Store := ⟨[3], 10, ⟨[], 0⟩, ⟨[], 0⟩, [inactiveResume, orphanResume], 2⟩

/-- An active resume owned by `u1`. -/
def activeResume : ResumeRec := ⟨0, "Bob", "CS", "2020", some 3, "u1", [], [], true, 0⟩

/-- A store holding only the active resume. -/
def activeStore : Store := ⟨[3], 4, ⟨[], 0⟩, ⟨[], 0⟩, [activeResume], 1⟩

/-- An owner update supplying the same company name twice. -/
def dupUpdateReq : UpdateReq := ⟨.wellFormed 0, none, none, none, some "google,google", none, some "u1", "member"⟩

/-- An admin update supplying one company and one keyword list. -/
def plainUpdateReq : UpdateReq := ⟨.wellFormed 0, some "Bobby", none, none, some "Acme", some "ml", some "u1", "admin"⟩

/-- The all-uppercase members of `commonAbbreviations` — the only entries the
case-sensitive `includes(word.toUpperCase())` test can ever match. -/
def upperForced : List String :=
  ["LLC", "LLP", "USA", "US", "UK", "AI", "IT", "IBM", "HP", "AWS", "GE"]

/-! ## Helper lemmas about the upload pipeline -/

/-- A failed `Option (List α)` result defaults to the empty list. -/
theorem getD_eq_nil {α : Type} {o : Option (List α)} (h : o.isNone = true) :
    o.getD [] = [] := by
  cases o with
  | none => rfl
  | some v => simp at h

/-- If a run of `uploadResume` wrote its blob, the request carried a file
that passed validation and the GridFS write succeeded. -/
theorem blobWritten_run (orc : Oracle) (req : UploadReq) (st : Store) (now : Nat)
    (hw : (uploadResume orc req st now).blobWritten = true) :
    ∃ f, req.file = some f ∧ validateFile f = none ∧ orc.blobWriteFails = false := by
  unfold uploadResume at hw
  split at hw
  · simp [rejectOutcome] at hw
  · rename_i f hf
    split at hw
    · simp [rejectOutcome] at hw
    · rename_i hv
      refine ⟨f, hf, hv, ?_⟩
      unfold uploadValidated at hw
      cases hb : orc.blobWriteFails with
      | true => rw [hb] at hw; simp at hw
      | false => rfl

/-- Once validation passed and the GridFS write succeeded, `uploadResume` is
the post-blob stage applied to the blob-extended store. -/
theorem uploadResume_after_blob (orc : Oracle) (req : UploadReq) (f : FileData)
    (st : Store) (now : Nat)
    (hf : req.file = some f) (hv : validateFile f = none) (hb : orc.blobWriteFails = false) :
    uploadResume orc req st now =
      uploadAfterBlob orc req (mkFields orc req f now) (mkWarning orc)
        { st with blobs := st.blobs ++ [st.nextBlobId], nextBlobId := st.nextBlobId + 1 }
        st.nextBlobId := by
  unfold uploadResume uploadValidated
  simp only [hf, hv, hb]
  simp

/-- When record creation or the commit fails, the post-blob stage responds
500 at that step and performs exactly one compensating delete attempt. -/
theorem uploadAfterBlob_metadata_failure (orc : Oracle) (req : UploadReq) (flds : Fields)
    (pw : Option String) (st : Store) (blobId : Nat)
    (hfail : orc.dbCreateFails = true ∨ orc.commitFails = true) :
    ((uploadAfterBlob orc req flds pw st blobId).status =
      if orc.dbCreateFails then UploadStatus.serverError "database_create"
      else UploadStatus.serverError "transaction_commit") ∧
    (uploadAfterBlob orc req flds pw st blobId).blobDeleteAttempts = 1 := by
  unfold uploadAfterBlob
  rcases hfail with h | h
  · simp [h]
  · cases hd : orc.dbCreateFails with
    | true => simp [hd]
    | false => simp [hd, h]

/-- If a run ended 201, the request carried a validated file and none of the
GridFS write, record creation or commit failed. -/
theorem created_run (orc : Oracle) (req : UploadReq) (st : Store) (now : Nat)
    (h : (uploadResume orc req st now).status = .created) :
    ∃ f, req.file = some f ∧ validateFile f = none ∧ orc.blobWriteFails = false ∧
      orc.dbCreateFails = false ∧ orc.commitFails = false := by
  unfold uploadResume at h
  split at h
  · simp [rejectOutcome] at h
  · rename_i f hf
    split at h
    · simp [rejectOutcome] at h
    · rename_i hv
      unfold uploadValidated at h
      cases hb : orc.blobWriteFails with
      | true => rw [hb] at h; simp at h
      | false =>
        rw [hb] at h
        simp only [Bool.false_eq_true, if_false] at h
        refine ⟨f, hf, hv, rfl, ?_, ?_⟩
        · cases hd : orc.dbCreateFails with
          | true =>
            unfold uploadAfterBlob at h
            rw [hd] at h
            simp at h
          | false => rfl
        · cases hc : orc.commitFails with
          | true =>
            unfold uploadAfterBlob at h
            rw [hc] at h
            cases hd : orc.dbCreateFails with
            | true => rw [hd] at h; simp at h
            | false => rw [hd] at h; simp at h
          | false => rfl

/-- The success branch of the post-blob stage: the created record, its
field provenance, and the response payload. -/
theorem uploadAfterBlob_created_record (orc : Oracle) (req : UploadReq) (flds : Fields)
    (pw : Option String) (st : Store) (blobId : Nat)
    (hd : orc.dbCreateFails = false) (hc : orc.commitFails = false) :
    ∃ r, (uploadAfterBlob orc req flds pw st blobId).store.resumes = st.resumes ++ [r] ∧
      ((uploadAfterBlob orc req flds pw st blobId).companyFailure = true → r.companies = []) ∧
      ((uploadAfterBlob orc req flds pw st blobId).keywordFailure = true → r.keywords = []) ∧
      r.uploadedBy = (if falsyS req.userId then "admin" else req.userId.getD "") ∧
      r.name = jsTrim flds.name ∧ r.major = jsTrim flds.major ∧
      r.graduationYear = jsTrim flds.graduationYear ∧ r.isActive = true ∧
      (uploadAfterBlob orc req flds pw st blobId).data =
        some ⟨r.id, r.name, r.major, r.graduationYear, pw,
              flds.uniqueCompanyList, flds.uniqueKeywordList⟩ ∧
      (uploadAfterBlob orc req flds pw st blobId).status = .created ∧
      r.companies = (if flds.uniqueCompanyList.length > 0
        then findOrCreateTags companyNorm orc.companyFailAt st.companyState flds.uniqueCompanyList
        else (st.companyState, some [])).2.getD [] ∧
      r.keywords = (if flds.uniqueKeywordList.length > 0
        then findOrCreateTags keywordNorm orc.keywordFailAt st.keywordState flds.uniqueKeywordList
        else (st.keywordState, some [])).2.getD [] := by
  unfold uploadAfterBlob
  rw [hd, hc]
  simp only [Bool.false_eq_true, if_false]
  refine ⟨_, rfl, fun h => getD_eq_nil h, fun h => getD_eq_nil h,
    ?_, ?_, ?_, ?_, ?_, ?_, ?_, ?_, ?_⟩ <;> first | rfl | trivial

/-! ## C1 — compensation after a post-blob-write failure -/

/-- C1 (amended): for every upload in which the blob write succeeds but
record creation or the transaction commit fails, the orchestrator performs
exactly one compensating delete attempt on the just-uploaded blob and
returns 500; a failure of that compensating delete (`blobDeleteFails`)
never changes the response and is never retried.  The original claim also
listed tag association among the failing stages; that part is refuted by
`upload_tag_failure_no_compensation_cex`. -/
theorem upload_compensation_on_post_blob_failure
    (orc : Oracle) (req : UploadReq) (st : Store) (now : Nat) (b : Bool)
    (hfail : orc.dbCreateFails = true ∨ orc.commitFails = true)
    (hw : (uploadResume orc req st now).blobWritten = true) :
    (uploadResume orc req st now).status.is500 = true ∧
    (uploadResume orc req st now).blobDeleteAttempts = 1 ∧
    (uploadResume { orc with blobDeleteFails := b } req st now).status
      = (uploadResume orc req st now).status ∧
    (uploadResume { orc with blobDeleteFails := b } req st now).blobDeleteAttempts = 1 := by
  obtain ⟨f, hf, hv, hb⟩ := blobWritten_run orc req st now hw
  rw [uploadResume_after_blob orc req f st now hf hv hb,
    uploadResume_after_blob { orc with blobDeleteFails := b } req f st now hf hv hb]
  unfold uploadAfterBlob
  rcases hfail with h | h
  · simp [h, UploadStatus.is500]
  · cases hd : orc.dbCreateFails with
    | true => simp [h, hd, UploadStatus.is500]
    | false => simp [h, hd, UploadStatus.is500]

/-- C1 counterexample: in this run the blob write succeeds and the
tag-association stage fails, yet — contrary to the claim — the response is
not a 500 and no compensating delete is attempted (the failure is swallowed
and the upload ends 201). -/
theorem upload_tag_failure_no_compensation_cex :
    (uploadResume tagFailOracle tagFailReq emptyStore 0).blobWritten = true ∧
    (uploadResume tagFailOracle tagFailReq emptyStore 0).companyFailure = true ∧
    ¬ ((uploadResume tagFailOracle tagFailReq emptyStore 0).status.is500 = true ∧
       1 ≤ (uploadResume tagFailOracle tagFailReq emptyStore 0).blobDeleteAttempts) := by
  decide

/-- Witness for C1 at a concrete failing commit. -/
theorem upload_compensation_on_post_blob_failure_witness :
    ((dbFailOracle.dbCreateFails = true ∨ dbFailOracle.commitFails = true) ∧
     (uploadResume dbFailOracle tagFailReq emptyStore 0).blobWritten = true) ∧
    ((uploadResume dbFailOracle tagFailReq emptyStore 0).status.is500 = true ∧
     (uploadResume dbFailOracle tagFailReq emptyStore 0).blobDeleteAttempts = 1 ∧
     (uploadResume { dbFailOracle with blobDeleteFails := true } tagFailReq emptyStore 0).status
       = (uploadResume dbFailOracle tagFailReq emptyStore 0).status ∧
     (uploadResume { dbFailOracle with blobDeleteFails := true } tagFailReq emptyStore 0).blobDeleteAttempts = 1) :=
  ⟨⟨Or.inl (by decide), by decide⟩,
   upload_compensation_on_post_blob_failure dbFailOracle tagFailReq emptyStore 0 true
     (Or.inl (by decide)) (by decide)⟩

/-! ## C2 — validation rejections are side-effect free -/

/-- C2: every upload whose file is absent, empty, larger than 10 MiB, or
whose first four bytes are not `%PDF` returns a 400 `ValidationError` and
has no side effects: the store (blobs, tags, resumes) is unchanged and no
blob write happened. -/
theorem upload_validation_rejects_without_side_effects
    (orc : Oracle) (req : UploadReq) (st : Store) (now : Nat)
    (h : req.file = none ∨ ∃ f, req.file = some f ∧
      (f.buffer.length = 0 ∨ 10 * 1024 * 1024 < f.buffer.length ∨ f.buffer.take 4 ≠ pdfMagic)) :
    (uploadResume orc req st now).status.is400 = true ∧
    (uploadResume orc req st now).store = st ∧
    (uploadResume orc req st now).blobWritten = false := by
  unfold uploadResume
  rcases h with h | ⟨f, hf, hcond⟩
  · rw [h]
    exact ⟨rfl, rfl, rfl⟩
  · simp only [hf]
    cases hv : validateFile f with
    | some m => simp only [hv]; exact ⟨rfl, rfl, rfl⟩
    | none =>
      exfalso
      unfold validateFile at hv
      split_ifs at hv with h1 h2 h3
      rcases hcond with h0 | hbig | hmagic
      · exact h1 h0
      · exact h2 hbig
      · exact h3 hmagic

/-- Witness for C2: the `GIF8` upload scenario. -/
theorem upload_validation_rejects_without_side_effects_witness :
    (gifReq.file = none ∨ ∃ f, gifReq.file = some f ∧
      (f.buffer.length = 0 ∨ 10 * 1024 * 1024 < f.buffer.length ∨ f.buffer.take 4 ≠ pdfMagic)) ∧
    ((uploadResume okOracle gifReq emptyStore 0).status.is400 = true ∧
     (uploadResume okOracle gifReq emptyStore 0).store = emptyStore ∧
     (uploadResume okOracle gifReq emptyStore 0).blobWritten = false) :=
  ⟨Or.inr ⟨gifFile, rfl, Or.inr (Or.inr (by decide))⟩,
   upload_validation_rejects_without_side_effects okOracle gifReq emptyStore 0
     (Or.inr ⟨gifFile, rfl, Or.inr (Or.inr (by decide))⟩)⟩

/-! ## C3 — per-name skipping of tag-resolution failures -/

/-- C3 (amended): a tag-resolution failure during ingestion is handled per
category, not per name: when resolving any company name throws, the entire
company id list of this upload is discarded and the record is created with
an empty `companies` array (symmetrically for keywords); the Resume record
itself is still created.  The original per-name claim is refuted by
`upload_partial_tag_ids_not_kept_cex`. -/
theorem upload_tag_failure_drops_category_ids
    (orc : Oracle) (req : UploadReq) (st : Store) (now : Nat)
    (h : (uploadResume orc req st now).status = .created) :
    ∃ r, (uploadResume orc req st now).store.resumes = st.resumes ++ [r] ∧
      ((uploadResume orc req st now).companyFailure = true → r.companies = []) ∧
      ((uploadResume orc req st now).keywordFailure = true → r.keywords = []) := by
  obtain ⟨f, hf, hv, hb, hd, hc⟩ := created_run orc req st now h
  rw [uploadResume_after_blob orc req f st now hf hv hb]
  obtain ⟨r, hr1, hr2, hr3, _⟩ :=
    uploadAfterBlob_created_record orc req (mkFields orc req f now) (mkWarning orc)
      { st with blobs := st.blobs ++ [st.nextBlobId], nextBlobId := st.nextBlobId + 1 }
      st.nextBlobId hd hc
  exact ⟨r, hr1, hr2, hr3⟩

/-- C3 counterexample: uploading with companies `Acme, Bravo` where the
resolution of `Bravo` (the second name) throws.  `Acme` resolved
successfully first — its Company row with id 0 exists — yet the created
record's `companies` array is empty rather than `[0]`: the earlier
successful resolution was not kept. -/
theorem upload_partial_tag_ids_not_kept_cex :
    (uploadResume tagFailOracle tagFailReq emptyStore 0).status = .created ∧
    (uploadResume tagFailOracle tagFailReq emptyStore 0).companyFailure = true ∧
    (uploadResume tagFailOracle tagFailReq emptyStore 0).store.companyState.table = [⟨0, "Acme"⟩] ∧
    ¬ ((uploadResume tagFailOracle tagFailReq emptyStore 0).store.resumes.map
        ResumeRec.companies = [[0]]) ∧
    (uploadResume tagFailOracle tagFailReq emptyStore 0).store.resumes.map
        ResumeRec.companies = [[]] := by
  decide

/-- Witness for C3 at the concrete failing company resolution. -/
theorem upload_tag_failure_drops_category_ids_witness :
    ((uploadResume tagFailOracle tagFailReq emptyStore 0).status = .created) ∧
    (∃ r, (uploadResume tagFailOracle tagFailReq emptyStore 0).store.resumes =
        emptyStore.resumes ++ [r] ∧
      ((uploadResume tagFailOracle tagFailReq emptyStore 0).companyFailure = true →
        r.companies = []) ∧
      ((uploadResume tagFailOracle tagFailReq emptyStore 0).keywordFailure = true →
        r.keywords = [])) :=
  ⟨by decide,
   upload_tag_failure_drops_category_ids tagFailOracle tagFailReq emptyStore 0 (by decide)⟩

/-! ## C4 — extractor failure degrades to fallback metadata -/

/-- Name resolution when no form name is given and the parsed data is the
fallback object: the filename stem survives untouched whenever it is
non-empty, trim-stable and within the length clamp. -/
theorem computeName_fallback (stem : String) (now : Nat)
    (htrim : jsTrim stem = stem) (hne : stem ≠ "") (hlen : stem.data.length ≤ 255) :
    computeName none (fallbackParsed stem) stem now = stem := by
  have hj : ¬ jsTrim stem = "" := fun h2 => hne (htrim ▸ h2)
  have hlen2 : ¬ 255 < stem.length := Nat.not_lt.mpr hlen
  unfold computeName fallbackParsed
  simp [falsyS, ite_self, hne, hj, hlen2]

/-- The data-processing stage under C4's hypotheses: extractor threw, no
form fields supplied, well-behaved filename stem. -/
theorem mkFields_fallback (orc : Oracle) (req : UploadReq) (f : FileData) (orig : String)
    (now : Nat)
    (hparse : orc.parseResult = none) (hon : f.originalname = some orig)
    (hn : req.name = none) (hm : req.major = none) (hg : req.graduationYear = none)
    (hcs : req.companies = none) (hks : req.keywords = none)
    (htrim : jsTrim (stripExt orig) = stripExt orig) (hne : stripExt orig ≠ "")
    (hlen : (stripExt orig).data.length ≤ 255) :
    mkFields orc req f now = ⟨stripExt orig, "Unspecified", "Unspecified", [], []⟩ := by
  unfold mkFields mkParsed mkStem
  simp only [hparse, hon, hn, hm, hg, hcs, hks]
  rw [computeName_fallback (stripExt orig) now htrim hne hlen]
  rfl

/-- C4 (amended): for every upload of a valid PDF where the extractor
throws, no caller metadata fields are supplied and the storage/database
stages succeed, ingestion still ends 201; `major` and `graduationYear` are
`Unspecified`, companies and keywords are empty, and the response's
`parsingWarning` is non-null.  The record's name is the filename stem
provided the stem is non-empty, has no surrounding whitespace and fits the
255-character clamp — the degenerate stems are refuted by
`upload_fallback_name_empty_stem_cex`. -/
theorem upload_extractor_failure_fallback
    (orc : Oracle) (req : UploadReq) (f : FileData) (orig : String) (st : Store) (now : Nat)
    (hf : req.file = some f) (hon : f.originalname = some orig)
    (hv : validateFile f = none) (hparse : orc.parseResult = none)
    (hn : req.name = none) (hm : req.major = none) (hg : req.graduationYear = none)
    (hcs : req.companies = none) (hks : req.keywords = none)
    (hb : orc.blobWriteFails = false) (hd : orc.dbCreateFails = false)
    (hc : orc.commitFails = false)
    (htrim : jsTrim (stripExt orig) = stripExt orig) (hne : stripExt orig ≠ "")
    (hlen : (stripExt orig).data.length ≤ 255) :
    (uploadResume orc req st now).status = .created ∧
    ∃ r, (uploadResume orc req st now).store.resumes = st.resumes ++ [r] ∧
      r.name = stripExt orig ∧ r.major = "Unspecified" ∧
      r.graduationYear = "Unspecified" ∧ r.companies = [] ∧ r.keywords = [] ∧
      ∃ d, (uploadResume orc req st now).data = some d ∧ d.parsingWarning ≠ none := by
  rw [uploadResume_after_blob orc req f st now hf hv hb]
  rw [mkFields_fallback orc req f orig now hparse hon hn hm hg hcs hks htrim hne hlen]
  obtain ⟨r, hr1, -, -, -, hname, hmaj, hgrad, -, hdata, hstat, hcomp, hkw⟩ :=
    uploadAfterBlob_created_record orc req ⟨stripExt orig, "Unspecified", "Unspecified", [], []⟩
      (mkWarning orc)
      { st with blobs := st.blobs ++ [st.nextBlobId], nextBlobId := st.nextBlobId + 1 }
      st.nextBlobId hd hc
  refine ⟨hstat, r, hr1, ?_, ?_, ?_, ?_, ?_, ?_⟩
  · rw [hname]; exact htrim
  · rw [hmaj]; rfl
  · rw [hgrad]; rfl
  · rw [hcomp]; rfl
  · rw [hkw]; rfl
  · refine ⟨_, hdata, ?_⟩
    unfold mkWarning
    rw [hparse]
    simp

/-- C4 counterexample: a valid PDF named `.pdf` (empty filename stem) with a
throwing extractor and no form fields still ends 201, but the record's name
is the generated `Unknown_Resume_7` default, not the filename stem `""`. -/
theorem upload_fallback_name_empty_stem_cex :
    (uploadResume throwParseOracle dotPdfReq emptyStore 7).status = .created ∧
    stripExt ".pdf" = "" ∧
    ¬ ((uploadResume throwParseOracle dotPdfReq emptyStore 7).store.resumes.map
        ResumeRec.name = [stripExt ".pdf"]) ∧
    (uploadResume throwParseOracle dotPdfReq emptyStore 7).store.resumes.map
        ResumeRec.name = ["Unknown_Resume_7"] := by
  decide

/-- Witness for C4: the `alice.pdf` scenario from the specification. -/
theorem upload_extractor_failure_fallback_witness :
    (alicePdfReq.file = some ⟨some "alice.pdf", pdfMagic⟩ ∧
     throwParseOracle.parseResult = none ∧ jsTrim (stripExt "alice.pdf") = stripExt "alice.pdf") ∧
    ((uploadResume throwParseOracle alicePdfReq emptyStore 0).status = .created ∧
     ∃ r, (uploadResume throwParseOracle alicePdfReq emptyStore 0).store.resumes =
        emptyStore.resumes ++ [r] ∧
       r.name = stripExt "alice.pdf" ∧ r.major = "Unspecified" ∧
       r.graduationYear = "Unspecified" ∧ r.companies = [] ∧ r.keywords = [] ∧
       ∃ d, (uploadResume throwParseOracle alicePdfReq emptyStore 0).data = some d ∧
         d.parsingWarning ≠ none) :=
  ⟨⟨rfl, rfl, by decide⟩,
   upload_extractor_failure_fallback throwParseOracle alicePdfReq ⟨some "alice.pdf", pdfMagic⟩
     "alice.pdf" emptyStore 0 rfl rfl (by decide) rfl rfl rfl rfl rfl rfl rfl rfl rfl
     (by decide) (by decide) (by decide)⟩

/-! ## C6 — tag resolver idempotence -/

/-- Resolving a name whose canonical form already has a row leaves the
collection unchanged (the `findOne` hits). -/
theorem resolveName_found_fst (norm : String → String) (st : TagState) (n : String)
    (h : ∃ c ∈ st.table, c.name = norm n) :
    (resolveName norm st n).1 = st := by
  simp only [resolveName]
  obtain ⟨c, hcm, hcn⟩ := h
  have hsome : (st.table.find? (fun c => c.name = norm n)).isSome = true :=
    List.find?_isSome.mpr ⟨c, hcm, by simp [hcn]⟩
  obtain ⟨c', hc'⟩ := Option.isSome_iff_exists.mp hsome
  rw [hc']

/-- Resolving a name whose canonical form has no row appends exactly one new
row carrying the canonical name. -/
theorem resolveName_missing_table (norm : String → String) (st : TagState) (n : String)
    (h : ∀ c ∈ st.table, c.name ≠ norm n) :
    (resolveName norm st n).1.table = st.table ++ [⟨st.nextId, norm n⟩] := by
  simp only [resolveName]
  have hnone : st.table.find? (fun c => c.name = norm n) = none :=
    List.find?_eq_none.mpr (fun x hx => by simp [h x hx])
  rw [hnone]

/-- Resolution from a collection without the canonical name creates exactly
one row with that name. -/
theorem tagCount_after_resolve_of_zero (norm : String → String) (st : TagState) (n : String)
    (h0 : tagCount st (norm n) = 0) :
    tagCount (resolveName norm st n).1 (norm n) = 1 := by
  have hfe : st.table.filter (fun c => c.name = norm n) = [] :=
    List.length_eq_zero.mp h0
  have hall : ∀ c ∈ st.table, c.name ≠ norm n := by
    intro c hc hcn
    have hmem : c ∈ st.table.filter (fun c => c.name = norm n) :=
      List.mem_filter.mpr ⟨hc, by simp [hcn]⟩
    rw [hfe] at hmem
    cases hmem
  unfold tagCount
  rw [resolveName_missing_table norm st n hall, List.filter_append, hfe]
  simp

/-- Resolution when the canonical name already has a row touches nothing. -/
theorem resolveName_of_pos (norm : String → String) (st : TagState) (n : String)
    (hpos : 0 < tagCount st (norm n)) :
    (resolveName norm st n).1 = st := by
  apply resolveName_found_fst
  have hne : st.table.filter (fun c => c.name = norm n) ≠ [] :=
    List.length_pos.mp hpos
  obtain ⟨c, hc⟩ := List.exists_mem_of_ne_nil _ hne
  have hcf := List.mem_filter.mp hc
  exact ⟨c, hcf.1, by simpa using hcf.2⟩

/-- Once the canonical name has exactly one row, any run of the resolution
loop over names normalizing to it keeps exactly one row. -/
theorem findOrCreateTagsAux_keeps_one (norm : String → String) (failAt : Option Nat)
    (g : String) (ns : List String) :
    ∀ st idx acc, (∀ n ∈ ns, norm n = g) → tagCount st g = 1 →
      tagCount (findOrCreateTagsAux norm failAt st ns idx acc).1 g = 1 := by
  induction ns with
  | nil => intro st idx acc _ h1; simpa [findOrCreateTagsAux] using h1
  | cons n ns ih =>
    intro st idx acc hg h1
    unfold findOrCreateTagsAux
    split
    · simpa using h1
    · have hn : norm n = g := hg n (by simp)
      have hst : (resolveName norm st n).1 = st := by
        apply resolveName_of_pos
        rw [hn, h1]
        exact Nat.zero_lt_one
      simp only [hst]
      exact ih st (idx + 1) ((resolveName norm st n).2 :: acc)
        (fun m hm => hg m (by simp [hm])) h1

/-- A non-empty batch of names all normalizing to `g`, resolved from a
collection without `g`, leaves exactly one `g` row. -/
theorem findOrCreateTags_creates_one (norm : String → String) (g : String)
    (ns : List String) (st : TagState)
    (hg : ∀ n ∈ ns, norm n = g) (hne : ns ≠ []) (h0 : tagCount st g = 0) :
    tagCount (findOrCreateTags norm none st ns).1 g = 1 := by
  cases ns with
  | nil => exact absurd rfl hne
  | cons n ns =>
    unfold findOrCreateTags findOrCreateTagsAux
    split
    · rename_i hfa; simp at hfa
    · have hn : norm n = g := hg n (by simp)
      have h1 : tagCount (resolveName norm st n).1 g = 1 := by
        rw [← hn] at h0 ⊢
        exact tagCount_after_resolve_of_zero norm st n h0
      exact findOrCreateTagsAux_keeps_one norm none g ns _ 1 _
        (fun m hm => hg m (by simp [hm])) h1

/-- Exactly-one-row preservation over any further sequence of ingestions. -/
theorem resolveIngestions_keeps_one (batches : List (List String)) :
    ∀ st : TagState, (∀ b ∈ batches, ∀ n ∈ b, companyNorm n = "Google") →
      tagCount st "Google" = 1 →
      tagCount (resolveIngestions batches st) "Google" = 1 := by
  induction batches with
  | nil => intro st _ h1; simpa [resolveIngestions] using h1
  | cons b bs ih =>
    intro st hnorm h1
    unfold resolveIngestions
    rw [List.foldl_cons]
    exact ih _ (fun b' hb' => hnorm b' (by simp [hb']))
      (findOrCreateTagsAux_keeps_one companyNorm none "Google" b st 0 []
        (hnorm b (by simp)) h1)

/-- A sequence of ingestions whose names all normalize to `Google`, at
least one batch non-empty, starting with no `Google` row, ends with
exactly one. -/
theorem resolveIngestions_creates_one (batches : List (List String)) :
    ∀ st : TagState, (∀ b ∈ batches, ∀ n ∈ b, companyNorm n = "Google") →
      (∃ b ∈ batches, b ≠ []) → tagCount st "Google" = 0 →
      tagCount (resolveIngestions batches st) "Google" = 1 := by
  induction batches with
  | nil =>
    intro st _ hne _
    obtain ⟨b, hb, -⟩ := hne
    cases hb
  | cons b bs ih =>
    intro st hnorm hne h0
    unfold resolveIngestions
    rw [List.foldl_cons]
    by_cases hbe : b = []
    · subst hbe
      have hid : (findOrCreateTags companyNorm none st []).1 = st := rfl
      rw [hid]
      obtain ⟨b', hb', hbne'⟩ := hne
      rcases List.mem_cons.mp hb' with rfl | hbs
      · exact absurd rfl hbne'
      · exact ih st (fun c hc => hnorm c (by simp [hc])) ⟨b', hbs, hbne'⟩ h0
    · have h1 : tagCount (findOrCreateTags companyNorm none st b).1 "Google" = 1 :=
        findOrCreateTags_creates_one companyNorm "Google" b st (hnorm b (by simp)) hbe h0
      exact resolveIngestions_keeps_one bs _ (fun b' hb' => hnorm b' (by simp [hb'])) h1

/-- C6: resolving the names `google`, `Google`, `GOOGLE` — in any order and
multiplicity, across one or more ingestions — against a store with no
`Google` row yields exactly one Company row, named with the single
canonical normalized form `Google` (the common image of all three
spellings). -/
theorem tag_resolver_idempotent_google (batches : List (List String)) (st : TagState)
    (hall : ∀ b ∈ batches, ∀ n ∈ b, n = "google" ∨ n = "Google" ∨ n = "GOOGLE")
    (hne : ∃ b ∈ batches, b ≠ [])
    (h0 : tagCount st "Google" = 0) :
    tagCount (resolveIngestions batches st) "Google" = 1 ∧
    companyNorm "google" = "Google" ∧ companyNorm "Google" = "Google" ∧
    companyNorm "GOOGLE" = "Google" := by
  refine ⟨?_, by decide, by decide, by decide⟩
  have hnorm : ∀ b ∈ batches, ∀ n ∈ b, companyNorm n = "Google" := by
    intro b hb n hn
    rcases hall b hb n hn with rfl | rfl | rfl <;> decide
  exact resolveIngestions_creates_one batches st hnorm hne h0

/-- Witness for C6: the three spellings in one ingestion on a fresh store. -/
theorem tag_resolver_idempotent_google_witness :
    ((∀ b ∈ [["google", "Google", "GOOGLE"]], ∀ n ∈ b,
        n = "google" ∨ n = "Google" ∨ n = "GOOGLE") ∧
     tagCount ⟨[], 0⟩ "Google" = 0) ∧
    (tagCount (resolveIngestions [["google", "Google", "GOOGLE"]] ⟨[], 0⟩) "Google" = 1 ∧
     companyNorm "google" = "Google" ∧ companyNorm "Google" = "Google" ∧
     companyNorm "GOOGLE" = "Google") :=
  ⟨⟨by decide, by decide⟩,
   tag_resolver_idempotent_google [["google", "Google", "GOOGLE"]] ⟨[], 0⟩
     (by decide) ⟨["google", "Google", "GOOGLE"], by decide⟩ (by decide)⟩

/-! ## C7 — uppercase abbreviation forcing in `formatTitleCase` -/

/-- Index arithmetic for the word-formatting map. -/
theorem formatWords_getElem (l : List String) :
    ∀ k i, (formatWords k l)[i]? = (l[i]?).map (fun w => formatWord (k + i) w) := by
  induction l with
  | nil => intro k i; simp [formatWords]
  | cons w ws ih =>
    intro k i
    cases i with
    | zero => simp [formatWords]
    | succ j =>
      have harith : k + 1 + j = k + (j + 1) := by omega
      simp only [formatWords, List.getElem?_cons_succ, ih (k + 1) j, harith]

/-- A word whose uppercasing is one of the all-uppercase abbreviation
entries is forced to uppercase, at any position. -/
theorem formatWord_upper (i : Nat) (w : String) (hub : jsToUpper w ∈ upperForced) :
    formatWord i w = jsToUpper w := by
  have hmem : jsToUpper w ∈ commonAbbreviations := by
    have hsub : ∀ s ∈ upperForced, s ∈ commonAbbreviations := by decide
    exact hsub _ hub
  unfold formatWord
  rw [if_pos (by simpa using hmem)]

/-- C7 (amended): the title-case normalization forces a word to full
uppercase — at any position and regardless of supplied casing — exactly
when its uppercase form is one of the all-uppercase abbreviation entries
(LLC, LLP, USA, US, UK, AI, IT, IBM, HP, AWS, GE).  The mixed-case entries
of the source list (Inc, Corp, Ltd, Co) can never match the case-sensitive
`includes(word.toUpperCase())` test; see
`titlecase_inc_not_uppercased_cex`. -/
theorem titlecase_upper_abbreviations (text : String) (i : Nat) (w : String)
    (hw : (splitOnChar ' ' text)[i]? = some w)
    (hub : jsToUpper w ∈ upperForced) :
    ∃ ws, formatTitleCase text = joinWith " " ws ∧ ws[i]? = some (jsToUpper w) := by
  have htext : text ≠ "" := by
    intro h
    subst h
    have h0 : splitOnChar ' ' "" = [""] := rfl
    rw [h0] at hw
    cases i with
    | zero =>
      simp at hw
      subst hw
      exact absurd hub (by decide)
    | succ j => simp at hw
  refine ⟨formatWords 0 (splitOnChar ' ' text), ?_, ?_⟩
  · unfold formatTitleCase
    rw [if_neg htext]
  · rw [formatWords_getElem (splitOnChar ' ' text) 0 i, hw]
    exact congrArg some (formatWord_upper (0 + i) w hub)

/-- C7 counterexample: `inc` is in the abbreviation list as the mixed-case
entry `Inc`, but `formatTitleCase "acme inc"` yields `Acme Inc`, not
`Acme INC` — the entry is never forced to full uppercase. -/
theorem titlecase_inc_not_uppercased_cex :
    formatTitleCase "acme inc" = "Acme Inc" ∧
    formatTitleCase "acme inc" ≠ "Acme INC" ∧
    "Inc" ∈ commonAbbreviations := by
  decide

/-- Witness for C7 on `ibm cloud`. -/
theorem titlecase_upper_abbreviations_witness :
    ((splitOnChar ' ' "ibm cloud")[0]? = some "ibm" ∧ jsToUpper "ibm" ∈ upperForced) ∧
    (∃ ws, formatTitleCase "ibm cloud" = joinWith " " ws ∧ ws[0]? = some (jsToUpper "ibm")) :=
  ⟨⟨by decide, by decide⟩,
   titlecase_upper_abbreviations "ibm cloud" 0 "ibm" (by decide) (by decide)⟩

/-! ## C5 — soft-deleted records are invisible -/

/-- Membership through descending insertion. -/
theorem mem_insertDesc (r x : ResumeRec) (l : List ResumeRec) :
    x ∈ insertDesc r l ↔ x = r ∨ x ∈ l := by
  induction l with
  | nil => simp [insertDesc]
  | cons y ys ih =>
    unfold insertDesc
    split
    · simp [List.mem_cons]
    · simp only [List.mem_cons, ih]
      tauto

/-- The creation-time sort is a permutation: membership is unchanged. -/
theorem mem_sortByCreatedDesc (x : ResumeRec) (l : List ResumeRec) :
    x ∈ sortByCreatedDesc l ↔ x ∈ l := by
  induction l with
  | nil => simp [sortByCreatedDesc]
  | cons y ys ih => simp [sortByCreatedDesc, mem_insertDesc, ih]

/-- Every Resume matched by a compiled search query is active. -/
theorem evalQuery_active (q : ResumeQuery) (r : ResumeRec)
    (h : evalQuery q r = true) : r.isActive = true := by
  unfold evalQuery at h
  cases hact : r.isActive with
  | true => rfl
  | false => rw [hact] at h; simp at h

/-- Every record in a search result is active. -/
theorem search_records_active (p : SearchParams) (st : Store) (x : ResumeRec)
    (hx : x ∈ (searchResumes p st).records) : x.isActive = true := by
  simp only [searchResumes] at hx
  split at hx
  · simp at hx
  · split at hx
    · simp at hx
    · rw [mem_sortByCreatedDesc] at hx
      exact evalQuery_active _ _ (List.mem_filter.mp hx).2

/-- C5: a Resume with `isActive = false` never appears in search results,
its detail endpoint answers 404, and its file endpoint answers the
metadata-level 404 — whatever the current contents of the blob store. -/
theorem inactive_resume_invisible (p : SearchParams) (st : Store) (r : ResumeRec)
    (blobs2 : List Nat)
    (hmem : r ∈ st.resumes) (hinact : r.isActive = false)
    (hids : (st.resumes.map ResumeRec.id).Nodup) :
    r ∉ (searchResumes p st).records ∧
    getResumeById (.wellFormed r.id) st = .notFound ∧
    getResumeFile (.wellFormed r.id) { st with blobs := blobs2 } = .notFoundMeta := by
  have hfind : st.resumes.find? (fun x => x.id = r.id && x.isActive) = none := by
    rw [List.find?_eq_none]
    intro x hx hpx
    rw [Bool.and_eq_true] at hpx
    have hxb := hpx
    have hid : x.id = r.id := by simpa using hxb.1
    have hxr : x = r := List.inj_on_of_nodup_map hids hx hmem hid
    rw [hxr] at hxb
    rw [hinact] at hxb
    exact absurd hxb.2 (by simp)
  refine ⟨?_, ?_, ?_⟩
  · intro hr
    have hact := search_records_active p st r hr
    rw [hinact] at hact
    cases hact
  · simp only [getResumeById, hfind]
  · have hfind2 : ({ st with blobs := blobs2 } : Store).resumes.find?
        (fun x => x.id = r.id && x.isActive) = none := hfind
    simp only [getResumeFile, hfind2]

/-- Witness for C5 at the concrete soft-deleted record, with its blob still
physically present in the blob store. -/
theorem inactive_resume_invisible_witness :
    (inactiveResume ∈ inactiveStore.resumes ∧ inactiveResume.isActive = false ∧
     (inactiveStore.resumes.map ResumeRec.id).Nodup) ∧
    (inactiveResume ∉ (searchResumes ⟨none, none, none, none, none, none⟩
        inactiveStore).records ∧
     getResumeById (.wellFormed inactiveResume.id) inactiveStore = .notFound ∧
     getResumeFile (.wellFormed inactiveResume.id)
        { inactiveStore with blobs := [3] } = .notFoundMeta) :=
  ⟨⟨by decide, by decide, by decide⟩,
   inactive_resume_invisible ⟨none, none, none, none, none, none⟩ inactiveStore
     inactiveResume [3] (by decide) (by decide) (by decide)⟩

/-! ## C8 — file-delivery error paths -/

/-- C8: file delivery answers 400 on a malformed id; the metadata-level 404
when no active Resume with the requested id and a non-null blob id exists;
and the distinct stream-time 404 when such a Resume exists but its blob is
missing from the blob store. -/
theorem file_delivery_error_paths (st : Store) (s : String) (nMiss nHit : Nat)
    (r : ResumeRec) (fid : Nat) :
    (getResumeFile (.malformed s) st = .badRequest) ∧
    ((∀ x ∈ st.resumes, ¬ (x.id = nMiss ∧ x.isActive = true ∧ x.fileId ≠ none)) →
      getResumeFile (.wellFormed nMiss) st = .notFoundMeta) ∧
    (st.resumes.find? (fun x => x.id = nHit && x.isActive) = some r →
      r.fileId = some fid → st.blobs.contains fid = false →
      getResumeFile (.wellFormed nHit) st = .notFoundStream) := by
  refine ⟨rfl, ?_, ?_⟩
  · intro hno
    cases hfind : st.resumes.find? (fun x => x.id = nMiss && x.isActive) with
    | none => simp only [getResumeFile, hfind]
    | some x =>
      have hpx := List.find?_some hfind
      have hmx := List.mem_of_find?_eq_some hfind
      rw [Bool.and_eq_true] at hpx
      have hid : x.id = nMiss := by simpa using hpx.1
      have hfid : x.fileId = none := by
        by_contra hne
        exact hno x hmx ⟨hid, hpx.2, hne⟩
      simp only [getResumeFile, hfind, hfid]
  · intro hfind hfid hcont
    simp only [getResumeFile, hfind, hfid, hcont]
    simp

/-- Witness for C8 on the orphan store: a malformed id, an id matching no
record, and the orphan-metadata record with a dangling blob id. -/
theorem file_delivery_error_paths_witness :
    ((∀ x ∈ orphanStore.resumes, ¬ (x.id = 5 ∧ x.isActive = true ∧ x.fileId ≠ none)) ∧
     orphanStore.resumes.find? (fun x => x.id = 1 && x.isActive) = some orphanResume ∧
     orphanResume.fileId = some 9 ∧ orphanStore.blobs.contains 9 = false) ∧
    (getResumeFile (.malformed "zz") orphanStore = .badRequest ∧
     getResumeFile (.wellFormed 5) orphanStore = .notFoundMeta ∧
     getResumeFile (.wellFormed 1) orphanStore = .notFoundStream) :=
  ⟨⟨by decide, by decide, by decide, by decide⟩,
   ⟨(file_delivery_error_paths orphanStore "zz" 5 1 orphanResume 9).1,
    (file_delivery_error_paths orphanStore "zz" 5 1 orphanResume 9).2.1 (by decide),
    (file_delivery_error_paths orphanStore "zz" 5 1 orphanResume 9).2.2
      (by decide) (by decide) (by decide)⟩⟩

/-! ## C9 — update path, duplicates, and tag-record uniqueness -/

/-- A single find-or-create step cannot introduce a duplicate canonical
name. -/
theorem resolveName_nodup (norm : String → String) (st : TagState) (n : String)
    (h : (st.table.map TagRec.name).Nodup) :
    ((resolveName norm st n).1.table.map TagRec.name).Nodup := by
  simp only [resolveName]
  cases hfind : st.table.find? (fun c => c.name = norm n) with
  | some c => simpa using h
  | none =>
    simp only [hfind]
    rw [List.map_append, List.nodup_append]
    refine ⟨h, by simp, ?_⟩
    intro a ha hb
    simp only [List.map_cons, List.map_nil, List.mem_singleton] at hb
    subst hb
    obtain ⟨c, hc, hcn⟩ := List.mem_map.mp ha
    have hcon := List.find?_eq_none.mp hfind c hc
    simp [hcn] at hcon

/-- The resolution loop preserves canonical-name uniqueness. -/
theorem findOrCreateTagsAux_nodup (norm : String → String) (failAt : Option Nat)
    (ns : List String) :
    ∀ st idx acc, (st.table.map TagRec.name).Nodup →
      ((findOrCreateTagsAux norm failAt st ns idx acc).1.table.map TagRec.name).Nodup := by
  induction ns with
  | nil => intro st idx acc h; simpa [findOrCreateTagsAux] using h
  | cons n ns ih =>
    intro st idx acc h
    unfold findOrCreateTagsAux
    split
    · simpa using h
    · exact ih _ (idx + 1) _ (resolveName_nodup norm st n h)

/-- C9 (amended): the update path does not deduplicate the supplied lists
and the Resume's reference arrays may therefore contain repeated tag ids
(see `update_duplicate_references_cex`); resolution itself is idempotent,
so an update never creates duplicate Company or Keyword records: canonical
names stay unique in both collections. -/
theorem update_no_duplicate_tag_records (req : UpdateReq) (st : Store)
    (hc : (st.companyState.table.map TagRec.name).Nodup)
    (hk : (st.keywordState.table.map TagRec.name).Nodup) :
    (((updateResume req st).store.companyState.table.map TagRec.name).Nodup) ∧
    (((updateResume req st).store.keywordState.table.map TagRec.name).Nodup) := by
  unfold updateResume
  split
  · exact ⟨hc, hk⟩
  · split
    · exact ⟨hc, hk⟩
    · split
      · exact ⟨hc, hk⟩
      · constructor
        · cases hcs : optTruthy req.companies with
          | none => simpa [hcs] using hc
          | some cs =>
            simp only [hcs]
            exact findOrCreateTagsAux_nodup companyNorm none _ _ 0 [] hc
        · cases hks : optTruthy req.keywords with
          | none => simpa [hks] using hk
          | some ks =>
            simp only [hks]
            exact findOrCreateTagsAux_nodup keywordNorm none _ _ 0 [] hk

/-- C9 counterexample: updating with `companies=google,google` succeeds, and
the stored Resume's `companies` array is `[0, 0]` — two references to the
same Company row — so the field is not a duplicate-free set. -/
theorem update_duplicate_references_cex :
    (updateResume dupUpdateReq activeStore).status = .updated ∧
    (updateResume dupUpdateReq activeStore).store.resumes.map ResumeRec.companies = [[0, 0]] ∧
    (updateResume dupUpdateReq activeStore).store.companyState.table = [⟨0, "Google"⟩] ∧
    ¬ (∀ l ∈ (updateResume dupUpdateReq activeStore).store.resumes.map ResumeRec.companies,
        l.Nodup) := by
  decide

/-- Witness for C9 at the duplicate-supplying update. -/
theorem update_no_duplicate_tag_records_witness :
    ((activeStore.companyState.table.map TagRec.name).Nodup ∧
     (activeStore.keywordState.table.map TagRec.name).Nodup) ∧
    ((((updateResume dupUpdateReq activeStore).store.companyState.table.map
        TagRec.name).Nodup) ∧
     (((updateResume dupUpdateReq activeStore).store.keywordState.table.map
        TagRec.name).Nodup)) :=
  ⟨⟨by decide, by decide⟩,
   update_no_duplicate_tag_records dupUpdateReq activeStore (by decide) (by decide)⟩

/-! ## C10 — falsy principal ids default ownership to `admin` -/

/-- C10: every successful upload whose authenticated principal id is absent
or empty creates its Resume with `uploadedBy = "admin"` instead of being
rejected. -/
theorem upload_falsy_principal_defaults_admin
    (orc : Oracle) (req : UploadReq) (st : Store) (now : Nat)
    (h : (uploadResume orc req st now).status = .created)
    (hid : req.userId = none ∨ req.userId = some "") :
    ∃ r, (uploadResume orc req st now).store.resumes = st.resumes ++ [r] ∧
      r.uploadedBy = "admin" := by
  obtain ⟨f, hf, hv, hb, hd, hc⟩ := created_run orc req st now h
  rw [uploadResume_after_blob orc req f st now hf hv hb]
  obtain ⟨r, hr1, -, -, hub, -⟩ :=
    uploadAfterBlob_created_record orc req (mkFields orc req f now) (mkWarning orc)
      { st with blobs := st.blobs ++ [st.nextBlobId], nextBlobId := st.nextBlobId + 1 }
      st.nextBlobId hd hc
  refine ⟨r, hr1, ?_⟩
  rw [hub]
  have hfalsy : falsyS req.userId = true := by
    rcases hid with h | h <;> simp [h, falsyS]
  rw [hfalsy]
  simp

/-- Witness for C10: a successful upload with an empty principal id. -/
theorem upload_falsy_principal_defaults_admin_witness :
    ((uploadResume okOracle falsyUserReq emptyStore 0).status = .created ∧
     (falsyUserReq.userId = none ∨ falsyUserReq.userId = some "")) ∧
    (∃ r, (uploadResume okOracle falsyUserReq emptyStore 0).store.resumes =
        emptyStore.resumes ++ [r] ∧ r.uploadedBy = "admin") :=
  ⟨⟨by decide, Or.inr (by decide)⟩,
   upload_falsy_principal_defaults_admin okOracle falsyUserReq emptyStore 0
     (by decide) (Or.inr (by decide))⟩

end ResumeApp
